import Mathlib

/-!
Verification development for the mark_lang repository.

The Python sources are shallowly embedded as executable Lean definitions:
strings are Lean `String`s (lists of characters, as Python strings are
sequences of code points), Python `str.find` becomes an `Option Nat`,
Python exceptions raised by external collaborators become `Option`/`Except`
results, and the dictionaries of fixed shape become structures.  The
remote translation backend and the HTTP session are modelled as explicit
function parameters, matching the collaborator contracts of the code.
All definitions follow `src/src/mark_lang/…` line by line; Unicode-only
behaviours of Python (`str.lower`, `str.strip` on non-ASCII whitespace)
are modelled by their ASCII restrictions, which is what every input in
this development exercises.
-/

set_option autoImplicit false

universe u v

/-! ### Generic string helpers (Python `str` operations on `List Char`) -/

/-- Characters stripped by Python `str.strip()` (ASCII subset). -/
def isPyWs (c : Char) : Bool :=
  c = ' ' || c = '\t' || c = '\n' || c = '\r' || c = '\x0b' || c = '\x0c'

/-- Python `s.strip()` on the character list. -/
def stripL (l : List Char) : List Char :=
  ((l.dropWhile isPyWs).reverse.dropWhile isPyWs).reverse

/-- Python `s.strip()`. -/
def stripS (s : String) : String :=
  String.mk (stripL s.data)

/-- Python `s.rstrip("\n")` on the character list. -/
def rstripNlL (l : List Char) : List Char :=
  (l.reverse.dropWhile (fun c => c = '\n')).reverse

/-- Python `s.rstrip("\n")`. -/
def rstripNlS (s : String) : String :=
  String.mk (rstripNlL s.data)

/-- Python `s.lower()` (ASCII restriction: `Char.toLower` per character). -/
def lowerS (s : String) : String :=
  String.mk (s.data.map Char.toLower)

/-- First index at or after offset `i` where `pat` occurs in `l`
(helper for Python `str.find`). -/
def findLAux (pat : List Char) (i : Nat) : List Char → Option Nat
  | [] => if pat.isPrefixOf ([] : List Char) then some i else none
  | c :: t =>
    if pat.isPrefixOf (c :: t) then some i else findLAux pat (i + 1) t

/-- Python `s.find(pat)`: index of the first occurrence, `none` for -1. -/
def strFind (s pat : String) : Option Nat :=
  findLAux pat.data 0 s.data

/-- Python `s.find(pat, start)`: first occurrence at index ≥ `start`. -/
def strFindFrom (s pat : String) (start : Nat) : Option Nat :=
  (findLAux pat.data 0 (s.data.drop start)).map (· + start)

/-- Python slice `s[i:j]`. -/
def sliceS (s : String) (i j : Nat) : String :=
  String.mk ((s.data.drop i).take (j - i))

/-- Python slice `s[:j]`. -/
def takeS (s : String) (j : Nat) : String :=
  String.mk (s.data.take j)

/-- Python `sep.join(xs)` on character lists. -/
def joinSepL (sep : List Char) : List (List Char) → List Char
  | [] => []
  | [x] => x
  | x :: y :: xs => x ++ sep ++ joinSepL sep (y :: xs)

/-- Python `sep.join(xs)`. -/
def joinSepS (sep : String) (xs : List String) : String :=
  String.mk (joinSepL sep.data (xs.map String.data))

/-- Python `s.split(sep)` for a non-empty separator `s0 :: stail`:
left-to-right, non-overlapping.  `acc` holds the reversed current piece.
The extra fuel argument (always at least the list length plus one at the
call sites, so never exhausted) makes the recursion structural so that the
function evaluates inside the kernel. -/
def splitOnAuxL (s0 : Char) (stail : List Char) :
    Nat → List Char → List Char → List (List Char)
  | 0, acc, l => [acc.reverse ++ l]
  | _ + 1, acc, [] => [acc.reverse]
  | fuel + 1, acc, c :: rest =>
    if (s0 :: stail).isPrefixOf (c :: rest) then
      acc.reverse :: splitOnAuxL s0 stail fuel [] (rest.drop stail.length)
    else
      splitOnAuxL s0 stail fuel (c :: acc) rest

/-- Python `s.split(sep)` for the separators used here. -/
def splitOnS (sep : String) (s : String) : List String :=
  match sep.data with
  | [] => [s]
  | c :: cs =>
    (splitOnAuxL c cs (s.data.length + 1) [] s.data).map String.mk

/-- Python `pat in s` (substring containment). -/
def containsSub (s pat : String) : Bool :=
  (strFind s pat).isSome

/-- Enumerate a list starting at index `n` (Python `enumerate(xs, n)`). -/
def enumFrom {α : Type u} (n : Nat) : List α → List (Nat × α)
  | [] => []
  | x :: xs => (n, x) :: enumFrom (n + 1) xs

/-! ### `brief_ingest.py` -/

/-- Lightweight container for a business brief (`BusinessBrief`). -/
structure BusinessBrief where
  title : String
  content : String
  source : Option String
  tags : List String

/-- First non-blank stripped line of the text, if any
(the generator inside `BriefIngestor._derive_title`). -/
def firstNonBlankLine (text : String) : Option String :=
  ((splitOnS "\n" text).map stripS).find? (fun l => l ≠ "")

/-- `BriefIngestor._derive_title` with `prefer_fallback=False`, `fallback=None`:
first non-blank line truncated to 80 characters, else the default title. -/
def deriveTitle (text : String) : String :=
  match firstNonBlankLine text with
  | some l => takeS l 80
  | none => "Untitled Brief"

/-- `BriefIngestor.from_text`: `title or derive`, stripped content,
source `"inline"`, given (or empty) tags. -/
def briefFromText (text : String) (title : Option String) : BusinessBrief :=
  let t := match title with
    | some t => if t ≠ "" then t else deriveTitle text
    | none => deriveTitle text
  ⟨t, stripS text, some "inline", []⟩

/-! ### `creative_brief.py` -/

/-- Structured creative brief (`CreativeBrief`). -/
structure CreativeBrief where
  goals : String
  audience : String
  messaging : String
  timeframe : String
  source_title : String

/-- `CreativeBrief.to_dict`. -/
def CreativeBrief.to_dict (cb : CreativeBrief) : List (String × String) :=
  [("goals", cb.goals), ("audience", cb.audience), ("messaging", cb.messaging),
   ("timeframe", cb.timeframe), ("source_title", cb.source_title)]

/-- The fixed-shape defaults dictionary: one value per creative-brief field,
in the insertion order of the Python `DEFAULT_VALUES` dict. -/
structure BriefDefaults where
  goals : String
  audience : String
  messaging : String
  timeframe : String

/-- The module constant `DEFAULT_VALUES`. -/
def DEFAULT_VALUES : BriefDefaults :=
  ⟨"Increase brand awareness and generate qualified leads.",
   "Primary decision makers within the target industry vertical.",
   "Highlight value proposition, proof points, and call-to-action.",
   "Launch within the next fiscal quarter with bi-weekly reporting."⟩

/-- The keys of `DEFAULT_VALUES`, in iteration order. -/
def fieldNames : List String := ["goals", "audience", "messaging", "timeframe"]

/-- The literal marker searched for a field (`f"{field}:"`). -/
def fieldMarker (field : String) : String := field ++ ":"

/-- `CreativeBriefExtractor._find_section_end`: the minimum over all four
field markers of `normalized.find(marker, start_index)`, else the length. -/
def find_section_end (normalized : String) (start_index : Nat) : Nat :=
  let candidates := fieldNames.filterMap
    (fun f => strFindFrom normalized (fieldMarker f) start_index)
  match candidates.min? with
  | some m => m
  | none => normalized.length

/-- One iteration of the loop in `CreativeBriefExtractor._segment_sections`:
the section text for one field, `none` when the marker is absent. -/
def segmentField (content normalized : String) (field : String) : Option String :=
  match strFind normalized (fieldMarker field) with
  | none => none
  | some start =>
    let start_index := start + (fieldMarker field).length
    let end_index := find_section_end normalized start_index
    some (rstripNlS (stripS (sliceS content start_index end_index)))

/-- The sections dictionary built by `_segment_sections`
(at most the four fixed keys, so a structure of options). -/
structure Sections where
  goals : Option String
  audience : Option String
  messaging : Option String
  timeframe : Option String

/-- `CreativeBriefExtractor._segment_sections`. -/
def segment_sections (content : String) : Sections :=
  let normalized := lowerS content
  ⟨segmentField content normalized "goals",
   segmentField content normalized "audience",
   segmentField content normalized "messaging",
   segmentField content normalized "timeframe"⟩

/-- The extractor object: its `defaults` attribute (a dict with exactly the
four creative-brief keys, as in every construction in the repository). -/
structure CreativeBriefExtractor where
  defaults : BriefDefaults

/-- An extractor constructed as `CreativeBriefExtractor()`. -/
def defaultExtractor : CreativeBriefExtractor := ⟨DEFAULT_VALUES⟩

/-- `CreativeBriefExtractor._resolve_value` (via `sections.get`). -/
def resolveValue (sec : Option String) (default : String) : String :=
  sec.getD default

/-- `CreativeBriefExtractor.extract`. -/
def CreativeBriefExtractor.extract (e : CreativeBriefExtractor)
    (b : BusinessBrief) : CreativeBrief :=
  let s := segment_sections b.content
  ⟨resolveValue s.goals e.defaults.goals,
   resolveValue s.audience e.defaults.audience,
   resolveValue s.messaging e.defaults.messaging,
   resolveValue s.timeframe e.defaults.timeframe,
   b.title⟩

/-- The prompt f-string emitted by `detect_gaps` for a defaulted field. -/
def gapPrompt (field title : String) : String :=
  "Please provide specific " ++ field ++ " details for '" ++ title ++ "'"

/-- `CreativeBriefExtractor.detect_gaps`: iterate `self.defaults.items()` in
insertion order, emitting a prompt whenever the field equals its default. -/
def CreativeBriefExtractor.detect_gaps (e : CreativeBriefExtractor)
    (cb : CreativeBrief) : List (String × String) :=
  (if cb.goals = e.defaults.goals then
    [("goals", gapPrompt "goals" cb.source_title)] else []) ++
  (if cb.audience = e.defaults.audience then
    [("audience", gapPrompt "audience" cb.source_title)] else []) ++
  (if cb.messaging = e.defaults.messaging then
    [("messaging", gapPrompt "messaging" cb.source_title)] else []) ++
  (if cb.timeframe = e.defaults.timeframe then
    [("timeframe", gapPrompt "timeframe" cb.source_title)] else [])

/-! ### `brand_center/api_client.py` data model -/

/-- Guidelines returned by the Brand Centre (`BrandGuidelines`). -/
structure BrandGuidelines where
  tone_of_voice : String
  visual_style : String
  compliance_notes : String

/-- `BrandGuidelines.to_dict`. -/
def BrandGuidelines.to_dict (g : BrandGuidelines) : List (String × String) :=
  [("tone_of_voice", g.tone_of_voice), ("visual_style", g.visual_style),
   ("compliance_notes", g.compliance_notes)]

/-! ### `workflows/creative_campaign.py` -/

/-- One channel entry of the campaign plan.  The Python dicts carry only the
keys present for that channel, so the optional keys are `Option`s. -/
structure ChannelEntry where
  channel : String
  message : String
  timeline : Option String
  visual_style : Option String
  compliance : Option String

/-- The campaign plan dict: a summary plus the channel list. -/
structure CampaignPlan where
  summary : List (String × String)
  channels : List ChannelEntry

/-- `CreativeCampaignWorkflow._build_plan`. -/
def build_plan (cb : CreativeBrief) (g : BrandGuidelines) : CampaignPlan :=
  ⟨cb.to_dict,
   [⟨"email", cb.messaging ++ " | Tone: " ++ g.tone_of_voice,
     some cb.timeframe, none, none⟩,
    ⟨"social", "Snackable content mirroring '" ++ cb.goals ++ "'",
     none, some g.visual_style, none⟩,
    ⟨"web", "Landing page focused on lead capture",
     none, none, some g.compliance_notes⟩]⟩

/-- The mutable workflow state threaded through the pipeline
(`WorkflowState` / `WorkflowStateData`). -/
structure WorkflowStateData where
  brief : BusinessBrief
  brand_id : String
  creative_brief : Option CreativeBrief
  guidelines : Option BrandGuidelines
  campaign_plan : Option CampaignPlan
  gaps : List (String × String)

/-- The `extract` node: populate creative brief and gaps. -/
def extractNode (s : WorkflowStateData) : WorkflowStateData :=
  let cb := defaultExtractor.extract s.brief
  let gaps := defaultExtractor.detect_gaps cb
  { s with creative_brief := some cb, gaps := gaps }

/-- The `fetch_guidelines` node.  The brand connector is a parameter; the
brand id is `state.get("brand_id") or (brief.tags[0] if brief.tags else
"default")`, where Python `or` falls through on the empty string. -/
def guidelinesNode (client : String → BrandGuidelines)
    (s : WorkflowStateData) : WorkflowStateData :=
  let fallback := match s.brief.tags with
    | t :: _ => t
    | [] => "default"
  let bid := if s.brand_id = "" then fallback else s.brand_id
  { s with guidelines := some (client bid) }

/-- The `campaign` node: build the plan from the creative brief and the
guidelines populated by the earlier nodes. -/
def campaignNode (s : WorkflowStateData) : WorkflowStateData :=
  match s.creative_brief, s.guidelines with
  | some cb, some g => { s with campaign_plan := some (build_plan cb g) }
  | _, _ => s

/-- `CreativeCampaignWorkflow.run`: ingest and finalize are pass-through, so
the pipeline is the composition extract → fetch_guidelines → campaign.
A connector that raises aborts the run, so `client` here is the behaviour of
a non-raising connector (all connectors used by the claims are total). -/
def runWorkflow (client : String → BrandGuidelines) (brief_text : String)
    (title : Option String) (brand_id : String) : WorkflowStateData :=
  let brief := briefFromText brief_text title
  let s0 : WorkflowStateData := ⟨brief, brand_id, none, none, none, []⟩
  campaignNode (guidelinesNode client (extractNode s0))

/-! ### `translator.py`

The external `GoogleTranslator` collaborator is a function parameter
`backend : String → Option String`; `none` models the backend raising an
exception (any failure is caught with a printed warning and a fallback).
Alongside each result we record, in call order, every string passed to the
backend, so that statements about what reaches the translation service can
be made. -/

/-- The translator object: the backend collaborator and `max_chunk_size`. -/
structure TextTranslator where
  backend : String → Option String
  max_chunk_size : Nat

/-- `TextTranslator.__init__` sets `max_chunk_size = 4500`. -/
def mkTranslator (backend : String → Option String) : TextTranslator :=
  ⟨backend, 4500⟩

/-- A backend whose every call raises. -/
def failingBackend : String → Option String := fun _ => none

/-- The sentence delimiters of `re.split(r'([.!?]+\s+)', paragraph)`. -/
def isSentencePunct (c : Char) : Bool :=
  c = '.' || c = '!' || c = '?'

/-- The regex split `re.split(r'([.!?]+\s+)', paragraph)`: alternating list
text, delimiter, text, …, where a delimiter is a maximal non-empty run of
`.!?` followed by a maximal non-empty whitespace run.  `acc` is the reversed
text accumulated so far; the fuel argument (always at least the list length
plus one at the call site, each step consumes at least one character) keeps
the recursion structural so the function evaluates inside the kernel. -/
def sentenceSplitAux : Nat → List Char → List Char → List (List Char)
  | 0, acc, l => [acc.reverse ++ l]
  | _ + 1, acc, [] => [acc.reverse]
  | fuel + 1, acc, c :: rest =>
    if isSentencePunct c then
      let run := c :: rest.takeWhile isSentencePunct
      let rest2 := rest.dropWhile isSentencePunct
      let ws := rest2.takeWhile isPyWs
      if ws.isEmpty then
        sentenceSplitAux fuel (run.reverse ++ acc) rest2
      else
        acc.reverse :: (run ++ ws) :: sentenceSplitAux fuel [] (rest2.dropWhile isPyWs)
    else
      sentenceSplitAux fuel (c :: acc) rest

/-- The full regex split of a paragraph into the alternating
text / delimiter list. -/
def sentenceSplit (para : String) : List String :=
  (sentenceSplitAux (para.data.length + 1) [] para.data).map String.mk

/-- Pair up the alternating `[text, delim, text, …]` list as the loop
`for i in range(0, len(sentences), 2)` does, with an empty delimiter when
`i + 1` is out of range. -/
def toSentencePairs : List String → List (String × String)
  | [] => []
  | [s] => [(s, "")]
  | s :: d :: rest => (s, d) :: toSentencePairs rest

/-- The loop of `TextTranslator._translate_long_paragraph` over
(sentence, delimiter) pairs.  State: the pending `current_chunk`.
Returns the `translated_sentences` list and the backend-call trace. -/
def longParaLoop (t : TextTranslator) :
    List (String × String) → String → List String × List String
  | [], current =>
    if current ≠ "" then
      match t.backend current with
      | some tr => ([tr], [current])
      | none => ([current], [current])
    else ([], [])
  | (s, d) :: rest, current =>
    if current.length + s.length + d.length > t.max_chunk_size then
      if current ≠ "" then
        let next := longParaLoop t rest (s ++ d)
        match t.backend current with
        | some tr => (tr :: next.1, current :: next.2)
        | none => (current :: next.1, current :: next.2)
      else
        let arg := takeS s t.max_chunk_size
        let next := longParaLoop t rest current
        match t.backend arg with
        | some tr => (tr :: next.1, arg :: next.2)
        | none => (s :: next.1, arg :: next.2)
    else
      longParaLoop t rest (current ++ s ++ d)

/-- `TextTranslator._translate_long_paragraph`: sentence-chunk the paragraph
and rejoin the translated chunks with single spaces. -/
def translate_long_paragraph (t : TextTranslator) (para : String) :
    String × List String :=
  let r := longParaLoop t (toSentencePairs (sentenceSplit para)) ""
  (joinSepS " " r.1, r.2)

/-- The loop of `TextTranslator._translate_chunks` over paragraphs, plus the
trailing `if current_chunk:` flush.  State: the pending `current_chunk`.
Returns the `translated_paragraphs` list and the backend-call trace. -/
def chunksLoop (t : TextTranslator) :
    List String → String → List String × List String
  | [], current =>
    if current ≠ "" then
      match t.backend current with
      | some tr => ([tr], [current])
      | none => ([current], [current])
    else ([], [])
  | p :: rest, current =>
    if current.length + p.length + 2 > t.max_chunk_size then
      if current ≠ "" then
        let next := chunksLoop t rest p
        match t.backend current with
        | some tr => (tr :: next.1, current :: next.2)
        | none => (current :: next.1, current :: next.2)
      else
        let lp := translate_long_paragraph t p
        let next := chunksLoop t rest current
        (lp.1 :: next.1, lp.2 ++ next.2)
    else
      chunksLoop t rest (if current ≠ "" then current ++ "\n\n" ++ p else current ++ p)

/-- `TextTranslator._translate_chunks`: split on blank lines, chunk, and
rejoin the translated chunks with blank lines. -/
def translate_chunks (t : TextTranslator) (text : String) :
    String × List String :=
  let r := chunksLoop t (splitOnS "\n\n" text) ""
  (joinSepS "\n\n" r.1, r.2)

/-- `TextTranslator.translate` together with its backend-call trace. -/
def translateCore (t : TextTranslator) (text : String) :
    String × List String :=
  if stripS text = "" then (text, [])
  else if text.length ≤ t.max_chunk_size then
    match t.backend text with
    | some tr => (tr, [text])
    | none => (text, [text])
  else translate_chunks t text

/-- `TextTranslator.translate`: the returned text. -/
def TextTranslator.translate (t : TextTranslator) (text : String) : String :=
  (translateCore t text).1

/-- The strings handed to the translation backend during
`TextTranslator.translate`, in call order. -/
def TextTranslator.backendCalls (t : TextTranslator) (text : String) :
    List String :=
  (translateCore t text).2

/-! ### `document_processor.py`

The third-party parsers (python-pptx, python-docx, pdfplumber, openpyxl)
are external collaborators: each extractor is embedded as a function of the
already-parsed raw material (shapes per slide, paragraphs and tables,
page texts and tables, rows per sheet), and performs the filtering,
joining and record building that the Python methods do. -/

/-- A pptx shape: its text attribute and its table rows (rows of cell
texts), either possibly absent (`hasattr` checks in the code). -/
structure PptxShape where
  text : Option String
  table : Option (List (List String))

/-- Join of a row of cells: strip each cell, keep the non-blank ones
(`" | ".join(cell.text.strip() for cell in row.cells if cell.text.strip())`). -/
def rowLine (cells : List String) : String :=
  joinSepS " | " (cells.filterMap (fun c =>
    let s := stripS c
    if s = "" then none else some s))

/-- The `slide_text` list collected for one slide in `_process_pptx`. -/
def slideTexts (shapes : List PptxShape) : List String :=
  (shapes.map (fun sh =>
    (match sh.text with
     | some tx => if stripS tx ≠ "" then [stripS tx] else []
     | none => []) ++
    (match sh.table with
     | some rows => (rows.map rowLine).filter (fun r => r ≠ "")
     | none => []))).flatten

/-- One entry of the pptx `slides` list. -/
structure SlideRecord where
  slide : Nat
  content : String

/-- The record returned by `DocumentProcessor._process_pptx`. -/
structure PptxDoc where
  file_name : String
  file_type : String
  slides : List SlideRecord
  full_text : String

/-- `DocumentProcessor._process_pptx`. -/
def process_pptx (file_name : String) (slides : List (List PptxShape)) :
    PptxDoc :=
  let slides_content := (enumFrom 1 slides).filterMap (fun p =>
    let st := slideTexts p.2
    if st ≠ [] then some (⟨p.1, joinSepS "\n" st⟩ : SlideRecord) else none)
  ⟨file_name, "pptx", slides_content,
   joinSepS "\n\n" (slides_content.map (fun s => s.content))⟩

/-- The record returned by `DocumentProcessor._process_docx`. -/
structure DocxDoc where
  file_name : String
  file_type : String
  paragraphs : List String
  tables : List String
  full_text : String

/-- `DocumentProcessor._process_docx`: raw paragraphs and tables
(tables as rows of cell texts) from the docx collaborator. -/
def process_docx (file_name : String) (paras : List String)
    (tables : List (List (List String))) : DocxDoc :=
  let paragraphs := paras.filterMap (fun p =>
    if stripS p ≠ "" then some (stripS p) else none)
  let tables_content := tables.filterMap (fun tb =>
    let table_text := (tb.map rowLine).filter (fun r => r ≠ "")
    if table_text ≠ [] then some (joinSepS "\n" table_text) else none)
  let full_text := joinSepS "\n" paragraphs ++
    (if tables_content ≠ [] then
      "\n\nTables:\n" ++ joinSepS "\n\n" tables_content else "")
  ⟨file_name, "docx", paragraphs, tables_content, full_text⟩

/-- A pdf page from the pdfplumber collaborator: the `extract_text()`
result (`None` possible) and the `extract_tables()` result, cells being
possibly-`None` values rendered by `str`. -/
structure PdfPage where
  text : Option String
  tables : List (List (List (Option String)))

/-- One entry of the pdf `pages` list. -/
structure PageRecord where
  page : Nat
  content : String

/-- The record returned by `DocumentProcessor._process_pdf`. -/
structure PdfDoc where
  file_name : String
  file_type : String
  pages : List PageRecord
  full_text : String

/-- Line for one pdf table row (`" | ".join(str(cell) for cell in row if
cell)`): keep truthy cells, unstripped. -/
def pdfRowLine (row : List (Option String)) : String :=
  joinSepS " | " (row.filterMap (fun c =>
    match c with
    | some s => if s = "" then none else some s
    | none => none))

/-- Text of one pdf table (`for row in table if row` keeps non-empty rows). -/
def pdfTableText (tb : List (List (Option String))) : String :=
  joinSepS "\n" ((tb.filter (fun r => r ≠ [])).map pdfRowLine)

/-- `DocumentProcessor._process_pdf`. -/
def process_pdf (file_name : String) (pagesIn : List PdfPage) : PdfDoc :=
  let pages_content := ((enumFrom 1 pagesIn).map (fun p =>
    (match p.2.text with
     | some tx =>
       if stripS tx ≠ "" then [(⟨p.1, stripS tx⟩ : PageRecord)] else []
     | none => []) ++
    p.2.tables.filterMap (fun tb =>
      let table_text := pdfTableText tb
      if table_text ≠ "" then
        some (⟨p.1, "[TABLE]\n" ++ table_text⟩ : PageRecord)
      else none))).flatten
  ⟨file_name, "pdf", pages_content,
   joinSepS "\n\n" (pages_content.map (fun p => p.content))⟩

/-- One entry of the xlsx `sheets` list. -/
structure SheetRecord where
  sheet : String
  content : String

/-- The record returned by `DocumentProcessor._process_excel`. -/
structure XlsxDoc where
  file_name : String
  file_type : String
  sheets : List SheetRecord
  full_text : String

/-- `DocumentProcessor._process_excel`: per sheet its name and its rows of
possibly-`None` cell values rendered by `str`.  Cells are kept when not
`None` and not whitespace-only; the kept value is unstripped. -/
def process_excel (file_name : String)
    (sheetsIn : List (String × List (List (Option String)))) : XlsxDoc :=
  let sheets_content := sheetsIn.filterMap (fun sh =>
    let rows_text := sh.2.filterMap (fun row =>
      let row_values := row.filterMap (fun c =>
        match c with
        | some s => if stripS s ≠ "" then some s else none
        | none => none)
      if row_values ≠ [] then some (joinSepS " | " row_values) else none)
    if rows_text ≠ [] then
      some (⟨sh.1, joinSepS "\n" rows_text⟩ : SheetRecord)
    else none)
  ⟨file_name, "xlsx", sheets_content,
   joinSepS "\n\n" (sheets_content.map (fun s =>
     "[Sheet: " ++ s.sheet ++ "]\n" ++ s.content))⟩

/-! ### `brand_center/api_client.py` client -/

/-- The JSON body of a Brand Centre response, as far as the client reads
it: the error `detail` field and the three guideline fields, each possibly
absent (`payload.get(…)`). -/
structure JsonPayload where
  detail : Option String
  tone_of_voice : Option String
  visual_style : Option String
  compliance_notes : Option String

/-- An HTTP response as the client sees it: status code, raw text, and
the parsed JSON body (`none` when `response.json()` raises). -/
structure HttpResponse where
  status_code : Nat
  text : String
  json : Option JsonPayload

/-- Errors out of `BrandCenterClient.fetch_guidelines`: a raised
`BrandCenterError` carrying its message, or the JSON decode error
propagating out of the success path's `response.json()`. -/
inductive FetchError where
  | brandCenter (msg : String)
  | jsonDecode
deriving DecidableEq

/-- `BrandCenterClient._extract_error_detail`. -/
def extract_error_detail (r : HttpResponse) : String :=
  match r.json with
  | some p => p.detail.getD r.text
  | none => r.text

/-- `BrandCenterClient._validate_response`: `some msg` is the raised
`BrandCenterError(msg)`, `none` means the response passed validation. -/
def validate_response (r : HttpResponse) : Option String :=
  if r.status_code = 401 then
    some "Authentication with Brand Centre failed"
  else if r.status_code = 403 then
    some "Access denied by Brand Centre policies"
  else if r.status_code ≥ 400 then
    some ("Brand Centre error " ++ toString r.status_code ++ ": " ++
      extract_error_detail r)
  else none

/-- `BrandCenterClient.fetch_guidelines`, as a function of the response the
session collaborator returns for `GET /brands/{brand_id}/guidelines`. -/
def fetch_guidelines (r : HttpResponse) : Except FetchError BrandGuidelines :=
  match validate_response r with
  | some msg => Except.error (FetchError.brandCenter msg)
  | none =>
    match r.json with
    | none => Except.error FetchError.jsonDecode
    | some payload =>
      Except.ok ⟨payload.tone_of_voice.getD "", payload.visual_style.getD "",
        payload.compliance_notes.getD ""⟩

/-! ### `ui/cli.py` -/

/-- The guidelines map of `LocalBrandCenterClient` (a JSON object of brand
id to well-formed guideline records). -/
structure LocalBrandCenterClient where
  guidelines : List (String × BrandGuidelines)

/-- The fixed default payload of `LocalBrandCenterClient.fetch_guidelines`. -/
def localDefaultGuidelines : BrandGuidelines :=
  ⟨"Professional and trustworthy", "Corporate, clean, minimal",
   "Ensure alignment with DNB data privacy policies."⟩

/-- `LocalBrandCenterClient.fetch_guidelines`: `self.guidelines.get(brand_id,
default payload)` built into a `BrandGuidelines`. -/
def LocalBrandCenterClient.fetch_guidelines (c : LocalBrandCenterClient)
    (brand_id : String) : BrandGuidelines :=
  match c.guidelines.lookup brand_id with
  | some g => g
  | none => localDefaultGuidelines

/-! ### Specification-worded section extraction

For the refinement claims about the brief extractor, the specification's
own description of a section is written out as a second definition, to be
compared with the embedded code: the section for a field runs from just
after that field's marker (first occurrence, searched on the lowercased
copy) to the nearest following marker occurrence, sliced from the original
content and stripped of surrounding whitespace. -/

/-- Position of the nearest occurrence, at or after `pos`, of any of the
four markers in the lowercased copy (spec wording: the nearest following
marker among all four). -/
def nearestMarkerAfter (normalized : String) (pos : Nat) : Option Nat :=
  (fieldNames.filterMap
    (fun f => strFindFrom normalized (fieldMarker f) pos)).min?

/-- The section text for a field as worded by the specification:
slice of the original content from just after the marker to the nearest
following marker (end of text if none follows), stripped. -/
def specSection (content field : String) : Option String :=
  (strFind (lowerS content) (fieldMarker field)).map (fun start =>
    let afterMarker := start + (fieldMarker field).length
    stripS (sliceS content afterMarker
      ((nearestMarkerAfter (lowerS content) afterMarker).getD
        (lowerS content).length)))

/-- Position of the nearest occurrence, at or after `pos`, of any of the
three markers other than the field's own (the boundary rule as worded by
the claim about section ends). -/
def nearestOtherMarkerAfter (normalized field : String) (pos : Nat) :
    Option Nat :=
  ((fieldNames.filter (fun g => g ≠ field)).filterMap
    (fun f => strFindFrom normalized (fieldMarker f) pos)).min?

/-- The section text for a field if its end boundary were the nearest
following occurrence of one of the other three markers only. -/
def specSectionOther (content field : String) : Option String :=
  (strFind (lowerS content) (fieldMarker field)).map (fun start =>
    let afterMarker := start + (fieldMarker field).length
    stripS (sliceS content afterMarker
      ((nearestOtherMarkerAfter (lowerS content) field afterMarker).getD
        (lowerS content).length)))

/-! ### Concrete inputs used by individual claims -/

/-- The stub guideline connector of the end-to-end scenario. -/
def c2client : String → BrandGuidelines :=
  fun _ => ⟨"Insightful", "Minimalist", "Archive all campaign assets for 7 years"⟩

/-- The brief text of the end-to-end scenario. -/
def c2briefText : String :=
  "Goals: Capture market share\nAudience: Finance leaders\nMessaging: Focus on resilience\nTimeframe: Q3 rollout"

/-- The workflow result of the end-to-end scenario. -/
def c2state : WorkflowStateData :=
  runWorkflow c2client c2briefText (some "Q3 Campaign") "dnb"

/-- A brief in which the `goals:` marker occurs twice. -/
def c8brief : BusinessBrief :=
  ⟨"T", "goals: X goals: Y audience: A messaging: M timeframe: T", none, []⟩

/-- The translator whose backend always raises. -/
def failingTranslator : TextTranslator := mkTranslator failingBackend

/-- A 4503-character single-paragraph text with one sentence boundary. -/
def t3input : String :=
  String.mk ('A' :: '.' :: ' ' :: List.replicate 4500 'b')

/-- What the translator returns for `t3input` when every backend call
fails: the two sentence chunks rejoined with an extra space. -/
def t3result : String :=
  String.mk ('A' :: '.' :: ' ' :: ' ' :: List.replicate 4500 'b')

/-- A 4603-character text: a short paragraph, a blank line, and a single
4600-character paragraph. -/
def t7input : String :=
  String.mk ('A' :: '\n' :: '\n' :: List.replicate 4600 'b')

/-- The oversized second paragraph of `t7input`. -/
def t7bigParagraph : String := String.mk (List.replicate 4600 'b')

/-! ## Helper lemmas -/

theorem data_append (a b : String) : (a ++ b).data = a.data ++ b.data := by
  cases a
  cases b
  rfl

theorem mk_append (a b : List Char) :
    String.mk a ++ String.mk b = String.mk (a ++ b) := rfl

theorem length_data (s : String) : s.length = s.data.length := rfl

theorem mk_eq_mk_iff (a b : List Char) :
    String.mk a = String.mk b ↔ a = b := by
  constructor
  · intro h
    cases h
    rfl
  · intro h
    exact congrArg String.mk h

theorem dropWhile_dropWhile {α : Type u} (p q : α → Bool)
    (h : ∀ c, q c = true → p c = true) :
    ∀ l : List α, (l.dropWhile p).dropWhile q = l.dropWhile p := by
  intro l
  induction l with
  | nil => simp
  | cons c t ih =>
    cases hc : p c with
    | true => simpa [List.dropWhile_cons, hc] using ih
    | false =>
      have hq : q c = false := by
        cases hq2 : q c with
        | true => exact absurd (h c hq2) (by simp [hc])
        | false => rfl
      simp [List.dropWhile_cons, hc, hq]

theorem rstripNl_strip (s : String) : rstripNlS (stripS s) = stripS s := by
  show String.mk (rstripNlL (stripL s.data)) = String.mk (stripL s.data)
  rw [mk_eq_mk_iff]
  show ((stripL s.data).reverse.dropWhile (fun c => c = '\n')).reverse
      = stripL s.data
  have hrev : (stripL s.data).reverse
      = (s.data.dropWhile isPyWs).reverse.dropWhile isPyWs := by
    simp [stripL]
  rw [hrev,
    dropWhile_dropWhile isPyWs (fun c => c = '\n')
      (by intro c hc; simp at hc; simp [hc, isPyWs])]
  simp [stripL]

theorem find_section_end_eq (normalized : String) (si : Nat) :
    find_section_end normalized si
      = (nearestMarkerAfter normalized si).getD normalized.length := by
  unfold find_section_end nearestMarkerAfter
  cases h : (fieldNames.filterMap
      (fun f => strFindFrom normalized (fieldMarker f) si)).min? <;>
    simp [h]

theorem segmentField_eq_spec (content field : String) :
    segmentField content (lowerS content) field = specSection content field := by
  unfold segmentField specSection
  cases h : strFind (lowerS content) (fieldMarker field) with
  | none => simp [h]
  | some start => simp [h, find_section_end_eq, rstripNl_strip]

/-! ## Claim C1 -/

/-- Claim C1: for a brief whose (lowercased) content contains all four
markers, every extracted creative-brief field equals the
specification-worded section slice: from just after the marker to the
nearest following marker among all four (end of text if none follows),
sliced from the original content, stripped. -/
theorem creative_brief_extract_matches_sections (b : BusinessBrief)
    (hg : containsSub (lowerS b.content) "goals:" = true)
    (ha : containsSub (lowerS b.content) "audience:" = true)
    (hm : containsSub (lowerS b.content) "messaging:" = true)
    (ht : containsSub (lowerS b.content) "timeframe:" = true) :
    some (defaultExtractor.extract b).goals = specSection b.content "goals" ∧
    some (defaultExtractor.extract b).audience = specSection b.content "audience" ∧
    some (defaultExtractor.extract b).messaging = specSection b.content "messaging" ∧
    some (defaultExtractor.extract b).timeframe = specSection b.content "timeframe" := by
  unfold CreativeBriefExtractor.extract segment_sections
  refine ⟨?_, ?_, ?_, ?_⟩ <;>
    simp only [resolveValue, ← segmentField_eq_spec] <;>
    [skip; skip; skip; skip] <;>
    unfold segmentField
  · rcases hfind : strFind (lowerS b.content) (fieldMarker "goals") with _ | start
    · exact absurd hfind (by
        intro hf
        unfold containsSub at hg
        rw [show fieldMarker "goals" = "goals:" from rfl] at hf
        rw [hf] at hg
        simp at hg)
    · simp
  · rcases hfind : strFind (lowerS b.content) (fieldMarker "audience") with _ | start
    · exact absurd hfind (by
        intro hf
        unfold containsSub at ha
        rw [show fieldMarker "audience" = "audience:" from rfl] at hf
        rw [hf] at ha
        simp at ha)
    · simp
  · rcases hfind : strFind (lowerS b.content) (fieldMarker "messaging") with _ | start
    · exact absurd hfind (by
        intro hf
        unfold containsSub at hm
        rw [show fieldMarker "messaging" = "messaging:" from rfl] at hf
        rw [hf] at hm
        simp at hm)
    · simp
  · rcases hfind : strFind (lowerS b.content) (fieldMarker "timeframe") with _ | start
    · exact absurd hfind (by
        intro hf
        unfold containsSub at ht
        rw [show fieldMarker "timeframe" = "timeframe:" from rfl] at hf
        rw [hf] at ht
        simp at ht)
    · simp

/-- Witness for C1 at a concrete brief with all four markers. -/
theorem creative_brief_extract_matches_sections_witness :
    (containsSub (lowerS "Goals: g\nAudience: a\nMessaging: m\nTimeframe: t") "goals:" = true) ∧
    (some (defaultExtractor.extract
        ⟨"T", "Goals: g\nAudience: a\nMessaging: m\nTimeframe: t", none, []⟩).goals
      = specSection "Goals: g\nAudience: a\nMessaging: m\nTimeframe: t" "goals") :=
  ⟨by decide,
   (creative_brief_extract_matches_sections
      ⟨"T", "Goals: g\nAudience: a\nMessaging: m\nTimeframe: t", none, []⟩
      (by decide) (by decide) (by decide) (by decide)).1⟩

/-! ## Claim C8 -/

/-- Counterexample to C8 as stated: in `c8brief` the `goals:` marker occurs
twice, the code ends the first goals section at the second `goals:`
occurrence (yielding `"X"`), while the nearest following occurrence of one
of the *other three* markers would end it at `audience:` (yielding
`"X goals: Y"`). -/
theorem section_end_other_markers_counterexample :
    (defaultExtractor.extract c8brief).goals = "X" ∧
    specSectionOther c8brief.content "goals" = some "X goals: Y" ∧
    some (defaultExtractor.extract c8brief).goals
      ≠ specSectionOther c8brief.content "goals" := by decide

/-- Claim C8 as amended: each found marker's section end boundary is the
minimum position, after that marker, of any occurrence of any of the four
markers — the field's own marker included — with end of text as fallback
(the rule encoded by `specSection`). -/
theorem section_end_uses_all_markers (b : BusinessBrief) :
    (containsSub (lowerS b.content) "goals:" = true →
      some (defaultExtractor.extract b).goals = specSection b.content "goals") ∧
    (containsSub (lowerS b.content) "audience:" = true →
      some (defaultExtractor.extract b).audience = specSection b.content "audience") ∧
    (containsSub (lowerS b.content) "messaging:" = true →
      some (defaultExtractor.extract b).messaging = specSection b.content "messaging") ∧
    (containsSub (lowerS b.content) "timeframe:" = true →
      some (defaultExtractor.extract b).timeframe = specSection b.content "timeframe") := by
  unfold CreativeBriefExtractor.extract segment_sections
  refine ⟨?_, ?_, ?_, ?_⟩ <;> intro hpresent <;>
    simp only [resolveValue, ← segmentField_eq_spec] <;> unfold segmentField
  · rcases hfind : strFind (lowerS b.content) (fieldMarker "goals") with _ | start
    · exact absurd hfind (by
        intro hf
        unfold containsSub at hpresent
        rw [show fieldMarker "goals" = "goals:" from rfl] at hf
        rw [hf] at hpresent
        simp at hpresent)
    · simp
  · rcases hfind : strFind (lowerS b.content) (fieldMarker "audience") with _ | start
    · exact absurd hfind (by
        intro hf
        unfold containsSub at hpresent
        rw [show fieldMarker "audience" = "audience:" from rfl] at hf
        rw [hf] at hpresent
        simp at hpresent)
    · simp
  · rcases hfind : strFind (lowerS b.content) (fieldMarker "messaging") with _ | start
    · exact absurd hfind (by
        intro hf
        unfold containsSub at hpresent
        rw [show fieldMarker "messaging" = "messaging:" from rfl] at hf
        rw [hf] at hpresent
        simp at hpresent)
    · simp
  · rcases hfind : strFind (lowerS b.content) (fieldMarker "timeframe") with _ | start
    · exact absurd hfind (by
        intro hf
        unfold containsSub at hpresent
        rw [show fieldMarker "timeframe" = "timeframe:" from rfl] at hf
        rw [hf] at hpresent
        simp at hpresent)
    · simp

/-- Witness for the amended C8, at the brief with a repeated marker. -/
theorem section_end_uses_all_markers_witness :
    (containsSub (lowerS c8brief.content) "goals:" = true) ∧
    some (defaultExtractor.extract c8brief).goals
      = specSection c8brief.content "goals" :=
  ⟨by decide, (section_end_uses_all_markers c8brief).1 (by decide)⟩

/-! ## Claim C9 -/

theorem mem_if_singleton {α : Type u} (c : Prop) [Decidable c] (a x : α) :
    (a ∈ if c then [x] else []) ↔ (c ∧ a = x) := by
  by_cases h : c <;> simp [h]

theorem defaultExtractor_defaults : defaultExtractor.defaults = DEFAULT_VALUES := rfl

/-- Membership in the gap-prompt mapping, for the default extractor:
exactly the fields whose value equals that field's default, each mapped to
the prompt naming the field and the brief title. -/
theorem detect_gaps_mem (cb : CreativeBrief) (f p : String) :
    (f, p) ∈ defaultExtractor.detect_gaps cb ↔
      (p = gapPrompt f cb.source_title ∧
       ((f = "goals" ∧ cb.goals = DEFAULT_VALUES.goals) ∨
        (f = "audience" ∧ cb.audience = DEFAULT_VALUES.audience) ∨
        (f = "messaging" ∧ cb.messaging = DEFAULT_VALUES.messaging) ∨
        (f = "timeframe" ∧ cb.timeframe = DEFAULT_VALUES.timeframe))) := by
  simp only [CreativeBriefExtractor.detect_gaps, defaultExtractor_defaults,
    List.mem_append, mem_if_singleton, Prod.mk.injEq]
  constructor
  · rintro (((⟨hd, hf, hp⟩ | ⟨hd, hf, hp⟩) | ⟨hd, hf, hp⟩) | ⟨hd, hf, hp⟩) <;>
      subst hf <;> subst hp <;> simp [hd]
  · rintro ⟨hp, (⟨hf, hd⟩ | ⟨hf, hd⟩ | ⟨hf, hd⟩ | ⟨hf, hd⟩)⟩ <;>
      subst hf <;> subst hp <;> simp [hd]

/-- Claim C9: each missing marker leaves the corresponding field at its
fixed default, and the gap mapping of the extracted brief contains exactly
the fields whose value equals the default, mapped to the prompt naming the
field and the brief's title. -/
theorem missing_sections_default_and_gaps (b : BusinessBrief) :
    (strFind (lowerS b.content) "goals:" = none →
      (defaultExtractor.extract b).goals = DEFAULT_VALUES.goals) ∧
    (strFind (lowerS b.content) "audience:" = none →
      (defaultExtractor.extract b).audience = DEFAULT_VALUES.audience) ∧
    (strFind (lowerS b.content) "messaging:" = none →
      (defaultExtractor.extract b).messaging = DEFAULT_VALUES.messaging) ∧
    (strFind (lowerS b.content) "timeframe:" = none →
      (defaultExtractor.extract b).timeframe = DEFAULT_VALUES.timeframe) ∧
    (∀ f p, (f, p) ∈ defaultExtractor.detect_gaps (defaultExtractor.extract b) ↔
      (p = gapPrompt f (defaultExtractor.extract b).source_title ∧
       ((f = "goals" ∧ (defaultExtractor.extract b).goals = DEFAULT_VALUES.goals) ∨
        (f = "audience" ∧ (defaultExtractor.extract b).audience = DEFAULT_VALUES.audience) ∨
        (f = "messaging" ∧ (defaultExtractor.extract b).messaging = DEFAULT_VALUES.messaging) ∨
        (f = "timeframe" ∧ (defaultExtractor.extract b).timeframe = DEFAULT_VALUES.timeframe)))) := by
  have hseg : ∀ field, strFind (lowerS b.content) (fieldMarker field) = none →
      segmentField b.content (lowerS b.content) field = none := by
    intro field h
    unfold segmentField
    rw [h]
  refine ⟨?_, ?_, ?_, ?_, fun f p => detect_gaps_mem _ f p⟩ <;> intro hnone
  · show (segmentField b.content (lowerS b.content) "goals").getD
        DEFAULT_VALUES.goals = DEFAULT_VALUES.goals
    rw [hseg "goals" hnone]
    rfl
  · show (segmentField b.content (lowerS b.content) "audience").getD
        DEFAULT_VALUES.audience = DEFAULT_VALUES.audience
    rw [hseg "audience" hnone]
    rfl
  · show (segmentField b.content (lowerS b.content) "messaging").getD
        DEFAULT_VALUES.messaging = DEFAULT_VALUES.messaging
    rw [hseg "messaging" hnone]
    rfl
  · show (segmentField b.content (lowerS b.content) "timeframe").getD
        DEFAULT_VALUES.timeframe = DEFAULT_VALUES.timeframe
    rw [hseg "timeframe" hnone]
    rfl

/-- Witness for C9 at a brief missing the goals marker. -/
theorem missing_sections_default_and_gaps_witness :
    (strFind (lowerS "Audience: a") "goals:" = none) ∧
    (defaultExtractor.extract ⟨"W", "Audience: a", none, []⟩).goals
      = DEFAULT_VALUES.goals :=
  ⟨by decide,
   (missing_sections_default_and_gaps ⟨"W", "Audience: a", none, []⟩).1 (by decide)⟩

/-! ## Claim C2 -/

/-- Claim C2: the end-to-end scenario.  The campaign plan holds exactly
three channels, email/social/web in order; the email entry's message
contains both the brief messaging and the guideline tone and its timeline
is the extracted timeframe; the social entry carries the guideline visual
style; the web entry carries the guideline compliance notes. -/
theorem workflow_end_to_end_plan :
    (c2state.campaign_plan.map (fun p => p.channels.length)) = some 3 ∧
    (c2state.campaign_plan.map (fun p => p.channels.map (fun c => c.channel)))
      = some ["email", "social", "web"] ∧
    ((c2state.campaign_plan.bind (fun p => p.channels[0]?)).map (fun c =>
        (containsSub c.message "Focus on resilience",
         containsSub c.message "Insightful", c.timeline)))
      = some (true, true, some "Q3 rollout") ∧
    (c2state.creative_brief.map (fun cb => cb.timeframe)) = some "Q3 rollout" ∧
    ((c2state.campaign_plan.bind (fun p => p.channels[1]?)).map
        (fun c => c.visual_style)) = some (some "Minimalist") ∧
    ((c2state.campaign_plan.bind (fun p => p.channels[2]?)).map
        (fun c => c.compliance))
      = some (some "Archive all campaign assets for 7 years") := by decide

/-! ## Claim C4 -/

/-- Claim C4: `fetch_guidelines` raises the authentication-failure message
on 401, the access-denied message on 403, a generic error carrying the
status code and the best-effort detail on any other status ≥ 400, and on a
sub-400 status with a parseable body returns the `BrandGuidelines` built
from the three payload fields. -/
theorem brand_center_fetch_status_mapping (r : HttpResponse) :
    (r.status_code = 401 → fetch_guidelines r
      = Except.error (FetchError.brandCenter
          "Authentication with Brand Centre failed")) ∧
    (r.status_code = 403 → fetch_guidelines r
      = Except.error (FetchError.brandCenter
          "Access denied by Brand Centre policies")) ∧
    (r.status_code ≥ 400 → r.status_code ≠ 401 → r.status_code ≠ 403 →
      fetch_guidelines r = Except.error (FetchError.brandCenter
        ("Brand Centre error " ++ toString r.status_code ++ ": " ++
          extract_error_detail r))) ∧
    (∀ payload, r.status_code < 400 → r.json = some payload →
      fetch_guidelines r = Except.ok
        ⟨payload.tone_of_voice.getD "", payload.visual_style.getD "",
         payload.compliance_notes.getD ""⟩) := by
  refine ⟨?_, ?_, ?_, ?_⟩
  · intro h
    simp [fetch_guidelines, validate_response, h]
  · intro h
    simp [fetch_guidelines, validate_response, h]
  · intro h h1 h3
    simp [fetch_guidelines, validate_response, h, h1, h3]
  · intro payload h hj
    have n1 : r.status_code ≠ 401 := by omega
    have n3 : r.status_code ≠ 403 := by omega
    have n4 : ¬ (r.status_code ≥ 400) := by omega
    simp [fetch_guidelines, validate_response, n1, n3, n4, hj]

/-- Witness for C4 at a concrete 403 response. -/
theorem brand_center_fetch_status_mapping_witness :
    ((403 : Nat) = 403) ∧
    fetch_guidelines ⟨403, "", none⟩
      = Except.error (FetchError.brandCenter
          "Access denied by Brand Centre policies") :=
  ⟨rfl, (brand_center_fetch_status_mapping ⟨403, "", none⟩).2.1 rfl⟩

/-! ## Claim C5 -/

/-- Counterexample to C5 as stated: a brief whose content is exactly
`"goals:"` yields an extracted goals field that is the empty string, so
the creative-brief fields are not always non-empty. -/
theorem creative_brief_nonempty_counterexample :
    (defaultExtractor.extract ⟨"T", "goals:", none, []⟩).goals = "" := by
  decide

/-- Claim C5 as amended: every creative-brief field is either that field's
fixed default (each default being non-empty) or the text of its extracted
section, which may be empty; and the keys of the gap mapping are a subset
of the creative-brief field names. -/
theorem creative_brief_fields_and_gap_keys (b : BusinessBrief) :
    ((defaultExtractor.extract b).goals = DEFAULT_VALUES.goals ∨
      (segment_sections b.content).goals
        = some (defaultExtractor.extract b).goals) ∧
    ((defaultExtractor.extract b).audience = DEFAULT_VALUES.audience ∨
      (segment_sections b.content).audience
        = some (defaultExtractor.extract b).audience) ∧
    ((defaultExtractor.extract b).messaging = DEFAULT_VALUES.messaging ∨
      (segment_sections b.content).messaging
        = some (defaultExtractor.extract b).messaging) ∧
    ((defaultExtractor.extract b).timeframe = DEFAULT_VALUES.timeframe ∨
      (segment_sections b.content).timeframe
        = some (defaultExtractor.extract b).timeframe) ∧
    DEFAULT_VALUES.goals ≠ "" ∧ DEFAULT_VALUES.audience ≠ "" ∧
    DEFAULT_VALUES.messaging ≠ "" ∧ DEFAULT_VALUES.timeframe ≠ "" ∧
    (∀ fp ∈ defaultExtractor.detect_gaps (defaultExtractor.extract b),
      fp.1 ∈ fieldNames) := by
  have hfield : ∀ (o : Option String) (d : String),
      o.getD d = d ∨ o = some (o.getD d) := by
    intro o d
    cases o
    · left
      rfl
    · right
      rfl
  refine ⟨hfield (segment_sections b.content).goals DEFAULT_VALUES.goals,
    hfield (segment_sections b.content).audience DEFAULT_VALUES.audience,
    hfield (segment_sections b.content).messaging DEFAULT_VALUES.messaging,
    hfield (segment_sections b.content).timeframe DEFAULT_VALUES.timeframe,
    by decide, by decide, by decide, by decide, ?_⟩
  intro fp hfp
  obtain ⟨f, p⟩ := fp
  have hmem := (detect_gaps_mem (defaultExtractor.extract b) f p).1 hfp
  rcases hmem with ⟨-, (⟨hf, -⟩ | ⟨hf, -⟩ | ⟨hf, -⟩ | ⟨hf, -⟩)⟩ <;>
    subst hf <;> simp [fieldNames]

/-! ## Claim C6 -/

/-- Counterexample to C6 as stated: a one-sheet workbook whose single
per-unit content is `"A"`, while `full_text` is `"[Sheet: S]\nA"` — the
sheet-name header makes `full_text` differ from the concatenation of the
per-unit content strings. -/
theorem document_full_text_concat_counterexample :
    ((process_excel "wb.xlsx" [("S", [[some "A"]])]).sheets.map
        (fun s => s.content)) = ["A"] ∧
    (process_excel "wb.xlsx" [("S", [[some "A"]])]).full_text
      = "[Sheet: S]\nA" ∧
    ("[Sheet: S]\nA" : String) ≠ "A" := by decide

/-- Claim C6 as amended: for pptx and pdf records `full_text` is the
per-unit contents joined with blank lines; for docx it is the kept
paragraphs joined with newlines plus, when any table text was kept, a
`Tables:` section; for xlsx it is the per-sheet contents each prefixed
with a `[Sheet: name]` header, joined with blank lines. -/
theorem document_full_text_per_format :
    (∀ fn slides, (process_pptx fn slides).full_text
      = joinSepS "\n\n" ((process_pptx fn slides).slides.map
          (fun s => s.content))) ∧
    (∀ fn pagesIn, (process_pdf fn pagesIn).full_text
      = joinSepS "\n\n" ((process_pdf fn pagesIn).pages.map
          (fun p => p.content))) ∧
    (∀ fn paras tables, (process_docx fn paras tables).full_text
      = joinSepS "\n" (process_docx fn paras tables).paragraphs ++
        (if (process_docx fn paras tables).tables ≠ [] then
          "\n\nTables:\n" ++
            joinSepS "\n\n" (process_docx fn paras tables).tables
        else "")) ∧
    (∀ fn sheetsIn, (process_excel fn sheetsIn).full_text
      = joinSepS "\n\n" ((process_excel fn sheetsIn).sheets.map
          (fun s => "[Sheet: " ++ s.sheet ++ "]\n" ++ s.content))) :=
  ⟨fun _ _ => rfl, fun _ _ => rfl, fun _ _ _ => rfl, fun _ _ => rfl⟩

/-! ## Claim C10 -/

/-- Claim C10: for a brand id absent from the configured guidelines map,
the local connector returns the fixed default guidelines (it cannot
raise), and a workflow run through it proceeds with those defaults. -/
theorem local_client_unknown_brand_defaults
    (m : List (String × BrandGuidelines)) (bid : String)
    (habsent : m.lookup bid = none) (hne : bid ≠ "")
    (text ti : String) :
    LocalBrandCenterClient.fetch_guidelines ⟨m⟩ bid
      = localDefaultGuidelines ∧
    (runWorkflow (fun b => LocalBrandCenterClient.fetch_guidelines ⟨m⟩ b)
        text (some ti) bid).guidelines = some localDefaultGuidelines := by
  have hfetch : LocalBrandCenterClient.fetch_guidelines ⟨m⟩ bid
      = localDefaultGuidelines := by
    unfold LocalBrandCenterClient.fetch_guidelines
    rw [show (LocalBrandCenterClient.mk m).guidelines = m from rfl, habsent]
  refine ⟨hfetch, ?_⟩
  unfold runWorkflow
  show (campaignNode (guidelinesNode _ _)).guidelines = _
  have hguide : ∀ s : WorkflowStateData, (campaignNode s).guidelines
      = s.guidelines := by
    intro s
    unfold campaignNode
    cases h1 : s.creative_brief <;> cases h2 : s.guidelines <;> simp [h2]
  rw [hguide]
  unfold guidelinesNode
  simp only [hne, if_neg]
  show some (LocalBrandCenterClient.fetch_guidelines ⟨m⟩
    (if bid = "" then _ else bid)) = _
  rw [if_neg hne, hfetch]

/-- Witness for C10 at an empty guidelines map and the brand id `dnb`. -/
theorem local_client_unknown_brand_defaults_witness :
    (([] : List (String × BrandGuidelines)).lookup "dnb" = none) ∧
    ("dnb" : String) ≠ "" ∧
    (runWorkflow
        (fun b => LocalBrandCenterClient.fetch_guidelines ⟨[]⟩ b)
        "Goals: g" (some "T") "dnb").guidelines
      = some localDefaultGuidelines :=
  ⟨rfl, by decide,
   (local_client_unknown_brand_defaults [] "dnb" rfl (by decide)
      "Goals: g" "T").2⟩

/-! ## Translator lemmas -/

theorem string_ext {a b : String} (h : a.data = b.data) : a = b := by
  cases a
  cases b
  cases h
  rfl

theorem empty_data : ("" : String).data = [] := rfl

theorem ne_empty_iff_data (a : String) : a ≠ "" ↔ a.data ≠ [] := by
  constructor
  · intro h hc
    exact h (string_ext (by rw [hc, empty_data]))
  · intro h hc
    rw [hc] at h
    exact h rfl

theorem append_ne_empty_left (a b : String) (h : a ≠ "") : a ++ b ≠ "" := by
  rw [ne_empty_iff_data] at h ⊢
  rw [data_append]
  intro hc
  exact h (List.append_eq_nil.1 hc).1

theorem empty_append (a : String) : "" ++ a = a :=
  string_ext (by rw [data_append, empty_data, List.nil_append])

theorem append_empty (a : String) : a ++ "" = a :=
  string_ext (by rw [data_append, empty_data, List.append_nil])

theorem joinSepL_cons (sep x : List Char) (L : List (List Char)) (h : L ≠ []) :
    joinSepL sep (x :: L) = x ++ sep ++ joinSepL sep L := by
  cases L
  · exact absurd rfl h
  · rfl

theorem joinSepS_data (sep : String) (xs : List String) :
    (joinSepS sep xs).data = joinSepL sep.data (xs.map String.data) := rfl

theorem joinSepS_nil (sep : String) : joinSepS sep [] = "" := rfl

theorem joinSepS_singleton (sep x : String) : joinSepS sep [x] = x :=
  string_ext rfl

theorem joinSepS_cons (sep x : String) (L : List String) (h : L ≠ []) :
    joinSepS sep (x :: L) = x ++ sep ++ joinSepS sep L := by
  apply string_ext
  rw [joinSepS_data, data_append, data_append, joinSepS_data, List.map_cons,
    joinSepL_cons _ _ _ (by simpa using h)]

theorem joinSepS_glue (sep x y : String) (L : List String) :
    joinSepS sep ((x ++ sep ++ y) :: L) = joinSepS sep (x :: y :: L) := by
  cases L with
  | nil =>
    rw [joinSepS_singleton, joinSepS_cons sep x [y] (by simp), joinSepS_singleton]
  | cons r rs =>
    rw [joinSepS_cons sep (x ++ sep ++ y) (r :: rs) (by simp),
      joinSepS_cons sep x (y :: r :: rs) (by simp),
      joinSepS_cons sep y (r :: rs) (by simp)]
    apply string_ext
    simp [data_append, List.append_assoc]

theorem splitOnAuxL_ne_nil (s0 : Char) (stail : List Char) :
    ∀ (fuel : Nat) (acc l : List Char),
      splitOnAuxL s0 stail fuel acc l ≠ [] := by
  intro fuel
  induction fuel with
  | zero =>
    intro acc l
    simp [splitOnAuxL]
  | succ fuel ih =>
    intro acc l
    cases l with
    | nil => simp [splitOnAuxL]
    | cons c rest =>
      by_cases hp : (s0 :: stail).isPrefixOf (c :: rest)
      · simp [splitOnAuxL, hp]
      · simpa [splitOnAuxL, hp] using ih (c :: acc) rest

theorem joinSepL_splitOnAuxL (s0 : Char) (stail : List Char) :
    ∀ (fuel : Nat) (acc l : List Char), l.length < fuel →
      joinSepL (s0 :: stail) (splitOnAuxL s0 stail fuel acc l)
        = acc.reverse ++ l := by
  intro fuel
  induction fuel with
  | zero =>
    intro acc l h
    exact absurd h (by omega)
  | succ fuel ih =>
    intro acc l h
    cases l with
    | nil => simp [splitOnAuxL, joinSepL]
    | cons c rest =>
      by_cases hp : (s0 :: stail).isPrefixOf (c :: rest)
      · obtain ⟨t, ht⟩ := List.isPrefixOf_iff_prefix.1 hp
        have hdrop : rest.drop stail.length = t := by
          have h2 : ((s0 :: stail) ++ t).drop (s0 :: stail).length = t :=
            List.drop_left _ _
          rw [ht] at h2
          simpa using h2
        have hlt : t.length < fuel := by
          have := congrArg List.length ht
          simp at this ⊢
          simp at h
          omega
        simp only [splitOnAuxL, if_pos hp]
        rw [joinSepL_cons _ _ _ (splitOnAuxL_ne_nil s0 stail fuel [] _),
          ih [] (rest.drop stail.length) (by rw [hdrop]; exact hlt)]
        rw [hdrop, List.reverse_nil, List.nil_append, ← ht]
        simp [List.append_assoc]
      · simp only [splitOnAuxL, if_neg hp]
        rw [ih (c :: acc) rest (by simp at h ⊢; omega)]
        simp

theorem joinSep_splitOnS (s : String) :
    joinSepS "\n\n" (splitOnS "\n\n" s) = s := by
  apply string_ext
  show (joinSepS "\n\n"
    ((splitOnAuxL '\n' ['\n'] (s.data.length + 1) [] s.data).map String.mk)).data
      = s.data
  rw [joinSepS_data, List.map_map]
  have hmaps : ∀ L : List (List Char),
      L.map (String.data ∘ String.mk) = L := by
    intro L
    induction L with
    | nil => rfl
    | cons x xs ihx => simp [ihx]
  rw [hmaps]
  exact joinSepL_splitOnAuxL '\n' ['\n'] (s.data.length + 1) [] s.data
    (by omega)

theorem failingTranslator_backend (s : String) :
    failingTranslator.backend s = none := rfl

theorem failingTranslator_max : failingTranslator.max_chunk_size = 4500 := rfl

theorem chunksLoop_fail_ne_nil :
    ∀ (paras : List String) (current : String), current ≠ "" →
      (chunksLoop failingTranslator paras current).1 ≠ [] := by
  intro paras
  induction paras with
  | nil =>
    intro current h
    simp [chunksLoop, h, failingTranslator_backend]
  | cons p rest ih =>
    intro current h
    rw [chunksLoop]
    by_cases hc : current.length + p.length + 2 > failingTranslator.max_chunk_size
    · simp only [if_pos hc, h, if_pos, ne_eq, not_false_eq_true,
        failingTranslator_backend]
      simp
    · simp only [if_neg hc]
      have hne : (if current ≠ "" then current ++ "\n\n" ++ p
          else current ++ p) ≠ "" := by
        simp only [h, if_pos, ne_eq, not_false_eq_true]
        exact append_ne_empty_left _ _ (append_ne_empty_left _ _ h)
      exact ih _ hne

theorem chunksLoop_fail_join :
    ∀ (paras : List String) (current : String),
      (∀ p ∈ paras, p ≠ "" ∧ p.length + 2 ≤ 4500) → current ≠ "" →
      joinSepS "\n\n" ((chunksLoop failingTranslator paras current).1)
        = joinSepS "\n\n" (current :: paras) := by
  intro paras
  induction paras with
  | nil =>
    intro current hall h
    simp [chunksLoop, h, failingTranslator_backend, joinSepS_singleton]
  | cons p rest ih =>
    intro current hall h
    have hp := hall p (by simp)
    have hrest : ∀ q ∈ rest, q ≠ "" ∧ q.length + 2 ≤ 4500 := by
      intro q hq
      exact hall q (by simp [hq])
    rw [chunksLoop]
    by_cases hc : current.length + p.length + 2 > failingTranslator.max_chunk_size
    · simp only [if_pos hc, h, if_pos, ne_eq, not_false_eq_true,
        failingTranslator_backend]
      rw [joinSepS_cons _ _ _ (chunksLoop_fail_ne_nil rest p hp.1),
        ih p hrest hp.1,
        joinSepS_cons "\n\n" current (p :: rest) (by simp)]
    · simp only [if_neg hc, h, if_pos, ne_eq, not_false_eq_true]
      rw [ih _ hrest (append_ne_empty_left _ _ (append_ne_empty_left _ _ h)),
        joinSepS_glue]

theorem chunksLoop_fail_join_start (paras : List String)
    (hall : ∀ p ∈ paras, p ≠ "" ∧ p.length + 2 ≤ 4500) :
    joinSepS "\n\n" ((chunksLoop failingTranslator paras "").1)
      = joinSepS "\n\n" paras := by
  cases paras with
  | nil => rfl
  | cons p rest =>
    have hp := hall p (by simp)
    rw [chunksLoop]
    have hc : ¬ ("".length + p.length + 2 > failingTranslator.max_chunk_size) := by
      rw [failingTranslator_max]
      have h2 := hp.2
      have h0 : ("" : String).length = 0 := rfl
      omega
    simp only [if_neg hc, ne_eq, not_true_eq_false]
    rw [if_neg (by simp), empty_append]
    exact chunksLoop_fail_join rest p
      (fun q hq => hall q (by simp [hq])) hp.1

theorem translate_short (text : String) (h : text.length ≤ 4500) :
    failingTranslator.translate text = text := by
  unfold TextTranslator.translate translateCore
  by_cases hs : stripS text = ""
  · simp [hs]
  · rw [if_neg hs, if_pos (by rw [failingTranslator_max]; exact h),
      failingTranslator_backend]

theorem translate_fail_unchanged (text : String)
    (hall : ∀ p ∈ splitOnS "\n\n" text, p ≠ "" ∧ p.length ≤ 4498) :
    failingTranslator.translate text = text := by
  by_cases hlen : text.length ≤ 4500
  · exact translate_short text hlen
  · unfold TextTranslator.translate translateCore
    by_cases hs : stripS text = ""
    · simp [hs]
    · rw [if_neg hs, if_neg (by rw [failingTranslator_max]; exact hlen)]
      unfold translate_chunks
      show joinSepS "\n\n" ((chunksLoop failingTranslator
        (splitOnS "\n\n" text) "").1) = text
      rw [chunksLoop_fail_join_start _ (by
        intro p hp
        have h2 := hall p hp
        exact ⟨h2.1, by omega⟩)]
      exact joinSep_splitOnS text

/-! ## Symbolic evaluation of the translator on the two large inputs

The two counterexample inputs exceed the 4500-character chunk threshold,
so their behaviour is derived by lemmas about `List.replicate` segments
rather than by brute-force kernel evaluation. -/

theorem dropWhile_replicate (p : Char → Bool) (c : Char) (hc : p c = false)
    (n : Nat) :
    List.dropWhile p (List.replicate n c) = List.replicate n c := by
  cases n with
  | zero => rfl
  | succ n => simp [List.replicate_succ, List.dropWhile_cons, hc]

theorem takeWhile_replicate (p : Char → Bool) (c : Char) (hc : p c = false)
    (n : Nat) :
    List.takeWhile p (List.replicate n c) = [] := by
  cases n with
  | zero => rfl
  | succ n => simp [List.replicate_succ, List.takeWhile_cons, hc]

theorem strip_no_ws_ends (c d : Char) (mid : List Char)
    (hc : isPyWs c = false) (hd : isPyWs d = false) :
    stripL (c :: (mid ++ [d])) = c :: (mid ++ [d]) := by
  unfold stripL
  rw [List.dropWhile_cons, hc]
  simp only [Bool.false_eq_true, if_false, List.reverse_cons,
    List.reverse_append, List.reverse_cons, List.reverse_nil,
    List.nil_append, List.singleton_append]
  simp only [List.cons_append]
  rw [List.dropWhile_cons, hd]
  simp

theorem splitOnAuxL_cons_neg (s0 : Char) (stail : List Char) (fuel : Nat)
    (acc : List Char) (c : Char) (rest : List Char) (h : (s0 == c) = false) :
    splitOnAuxL s0 stail (fuel + 1) acc (c :: rest)
      = splitOnAuxL s0 stail fuel (c :: acc) rest := by
  have hpre : (s0 :: stail).isPrefixOf (c :: rest) = false := by
    show (s0 == c && stail.isPrefixOf rest) = false
    rw [h, Bool.false_and]
  simp [splitOnAuxL, hpre]

theorem splitOnAuxL_cons_pos (s0 : Char) (stail : List Char) (fuel : Nat)
    (acc : List Char) (c : Char) (rest : List Char)
    (h : (s0 :: stail).isPrefixOf (c :: rest) = true) :
    splitOnAuxL s0 stail (fuel + 1) acc (c :: rest)
      = acc.reverse :: splitOnAuxL s0 stail fuel [] (rest.drop stail.length) := by
  simp [splitOnAuxL, h]

theorem splitOnAuxL_replicate (s0 : Char) (stail : List Char) (c : Char)
    (h : (s0 == c) = false) :
    ∀ (n fuel : Nat) (acc : List Char), n < fuel →
      splitOnAuxL s0 stail fuel acc (List.replicate n c)
        = [acc.reverse ++ List.replicate n c] := by
  intro n
  induction n with
  | zero =>
    intro fuel acc hf
    cases fuel with
    | zero => omega
    | succ f => simp [List.replicate, splitOnAuxL]
  | succ n ih =>
    intro fuel acc hf
    cases fuel with
    | zero => omega
    | succ f =>
      rw [List.replicate_succ, splitOnAuxL_cons_neg s0 stail f acc c _ h,
        ih f (c :: acc) (by omega)]
      simp [List.replicate_succ]

theorem sentenceSplitAux_cons_neg (fuel : Nat) (acc : List Char) (c : Char)
    (rest : List Char) (h : isSentencePunct c = false) :
    sentenceSplitAux (fuel + 1) acc (c :: rest)
      = sentenceSplitAux fuel (c :: acc) rest := by
  simp [sentenceSplitAux, h]

theorem sentenceSplitAux_replicate (c : Char) (h : isSentencePunct c = false) :
    ∀ (n fuel : Nat) (acc : List Char), n < fuel →
      sentenceSplitAux fuel acc (List.replicate n c)
        = [acc.reverse ++ List.replicate n c] := by
  intro n
  induction n with
  | zero =>
    intro fuel acc hf
    cases fuel with
    | zero => omega
    | succ f => simp [List.replicate, sentenceSplitAux]
  | succ n ih =>
    intro fuel acc hf
    cases fuel with
    | zero => omega
    | succ f =>
      rw [List.replicate_succ, sentenceSplitAux_cons_neg f acc c _ h,
        ih f (c :: acc) (by omega)]
      simp [List.replicate_succ]

theorem sentenceSplitAux_punct (fuel : Nat) (acc : List Char) (c : Char)
    (rest : List Char) (hc : isSentencePunct c = true)
    (hdrop : rest.dropWhile isSentencePunct = rest)
    (hws : rest.takeWhile isPyWs ≠ []) :
    sentenceSplitAux (fuel + 1) acc (c :: rest)
      = acc.reverse :: ((c :: rest.takeWhile isSentencePunct)
          ++ rest.takeWhile isPyWs)
        :: sentenceSplitAux fuel [] (rest.dropWhile isPyWs) := by
  have hempty : (rest.takeWhile isPyWs).isEmpty = false := by
    cases hw : rest.takeWhile isPyWs with
    | nil => exact absurd hw hws
    | cons w ws2 => rfl
  show (if isSentencePunct c = true then _ else _) = _
  rw [if_pos hc, hdrop]
  simp only [hempty, Bool.false_eq_true, if_false]

theorem t3_strip : stripS t3input = t3input := by
  show String.mk (stripL ('A' :: '.' :: ' ' :: List.replicate 4500 'b'))
    = t3input
  unfold t3input
  rw [mk_eq_mk_iff]
  have hsplit : ('A' :: '.' :: ' ' :: List.replicate 4500 'b' : List Char)
      = 'A' :: (('.' :: ' ' :: List.replicate 4499 'b') ++ ['b']) := by
    rw [show (4500 : Nat) = 4499 + 1 from rfl, List.replicate_succ']
    rfl
  rw [hsplit]
  exact strip_no_ws_ends 'A' 'b' _ (by decide) (by decide)

theorem t3_ne_empty : t3input ≠ "" := by
  rw [ne_empty_iff_data]
  show ('A' :: '.' :: ' ' :: List.replicate 4500 'b' : List Char) ≠ []
  exact List.cons_ne_nil _ _

theorem t3_data_len :
    ('A' :: '.' :: ' ' :: List.replicate 4500 'b' : List Char).length = 4503 := by
  rw [List.length_cons, List.length_cons, List.length_cons,
    List.length_replicate]

theorem t3_len : t3input.length = 4503 := t3_data_len

theorem t3_split : splitOnS "\n\n" t3input = [t3input] := by
  show (splitOnAuxL '\n' ['\n']
      (('A' :: '.' :: ' ' :: List.replicate 4500 'b' : List Char).length + 1)
      [] ('A' :: '.' :: ' ' :: List.replicate 4500 'b')).map String.mk
    = [t3input]
  rw [t3_data_len]
  rw [show (4503 : Nat) + 1 = 4502 + 1 + 1 from rfl,
    splitOnAuxL_cons_neg _ _ _ _ _ _ (by decide)]
  rw [show (4502 : Nat) + 1 = 4501 + 1 + 1 from rfl,
    splitOnAuxL_cons_neg _ _ _ _ _ _ (by decide)]
  rw [show (4501 : Nat) + 1 = 4501 + 1 from rfl,
    splitOnAuxL_cons_neg _ _ _ _ _ _ (by decide)]
  rw [splitOnAuxL_replicate '\n' ['\n'] 'b' (by decide) 4500 4501
    ([' ', '.', 'A']) (by omega)]
  rfl

theorem takeWhile_punct_sp :
    (' ' :: List.replicate 4500 'b').takeWhile isSentencePunct = [] := by
  rw [List.takeWhile_cons]
  simp only [show isSentencePunct ' ' = false from rfl, Bool.false_eq_true,
    if_false]

theorem dropWhile_punct_sp :
    (' ' :: List.replicate 4500 'b').dropWhile isSentencePunct
      = ' ' :: List.replicate 4500 'b' := by
  rw [List.dropWhile_cons]
  simp only [show isSentencePunct ' ' = false from rfl, Bool.false_eq_true,
    if_false]

theorem takeWhile_ws_sp :
    (' ' :: List.replicate 4500 'b').takeWhile isPyWs = [' '] := by
  rw [List.takeWhile_cons]
  simp only [show isPyWs ' ' = true from rfl, if_true]
  rw [takeWhile_replicate isPyWs 'b' (by decide) 4500]

theorem dropWhile_ws_sp :
    (' ' :: List.replicate 4500 'b').dropWhile isPyWs
      = List.replicate 4500 'b' := by
  rw [List.dropWhile_cons]
  simp only [show isPyWs ' ' = true from rfl, if_true]
  exact dropWhile_replicate isPyWs 'b' (by decide) 4500

theorem t3_sentences : sentenceSplit t3input
    = ["A", ". ", String.mk (List.replicate 4500 'b')] := by
  show (sentenceSplitAux
      (('A' :: '.' :: ' ' :: List.replicate 4500 'b' : List Char).length + 1)
      [] ('A' :: '.' :: ' ' :: List.replicate 4500 'b')).map String.mk = _
  rw [t3_data_len]
  rw [show (4503 : Nat) + 1 = 4503 + 1 from rfl,
    sentenceSplitAux_cons_neg _ _ _ _ (by decide)]
  rw [show (4503 : Nat) = 4502 + 1 from rfl]
  rw [sentenceSplitAux_punct 4502 ['A'] '.' (' ' :: List.replicate 4500 'b')
    (by decide) dropWhile_punct_sp (by rw [takeWhile_ws_sp]; exact List.cons_ne_nil _ _)]
  rw [takeWhile_punct_sp, takeWhile_ws_sp, dropWhile_ws_sp]
  rw [sentenceSplitAux_replicate 'b' (by decide) 4500 4502 [] (by omega)]
  rfl

theorem mkbb_len : (String.mk (List.replicate 4500 'b')).length = 4500 := by
  show (List.replicate 4500 'b').length = 4500
  rw [List.length_replicate]

theorem mkbb_ne_empty : String.mk (List.replicate 4500 'b') ≠ "" := by
  rw [ne_empty_iff_data]
  show List.replicate 4500 'b' ≠ []
  intro h
  have hlen := congrArg List.length h
  rw [List.length_replicate] at hlen
  have h0 : ([] : List Char).length = 0 := rfl
  omega

theorem t3_longpara :
    translate_long_paragraph failingTranslator t3input
      = ("A. " ++ " " ++ String.mk (List.replicate 4500 'b'),
         ["A. ", String.mk (List.replicate 4500 'b')]) := by
  unfold translate_long_paragraph
  rw [t3_sentences]
  rw [show toSentencePairs ["A", ". ", String.mk (List.replicate 4500 'b')]
      = [("A", ". "), (String.mk (List.replicate 4500 'b'), "")] from rfl]
  rw [longParaLoop]
  rw [if_neg (by rw [failingTranslator_max]; decide)]
  rw [show ("" ++ "A" ++ ". ") = "A. " from by decide]
  rw [longParaLoop]
  rw [if_pos (by
    rw [failingTranslator_max]
    have h1 : ("A. " : String).length = 3 := rfl
    have h2 := mkbb_len
    have h3 : ("" : String).length = 0 := rfl
    omega)]
  rw [if_pos (show ("A. " : String) ≠ "" from by decide)]
  rw [append_empty]
  rw [longParaLoop]
  rw [if_pos mkbb_ne_empty]
  rw [failingTranslator_backend, failingTranslator_backend]
  show (joinSepS " " ["A. ", String.mk (List.replicate 4500 'b')],
      (["A. ", String.mk (List.replicate 4500 'b')] : List String)) = _
  rw [joinSepS_cons " " "A. " [String.mk (List.replicate 4500 'b')]
    (List.cons_ne_nil _ _), joinSepS_singleton]

theorem translate_t3 : failingTranslator.translate t3input = t3result := by
  unfold TextTranslator.translate translateCore
  rw [if_neg (by rw [t3_strip]; exact t3_ne_empty)]
  rw [if_neg (by rw [t3_len, failingTranslator_max]; omega)]
  unfold translate_chunks
  rw [t3_split]
  rw [chunksLoop]
  rw [if_pos (by
    rw [failingTranslator_max, t3_len]
    have h3 : ("" : String).length = 0 := rfl
    omega)]
  rw [if_neg (show ¬ (("" : String) ≠ "") from by simp)]
  rw [chunksLoop]
  rw [if_neg (show ¬ (("" : String) ≠ "") from by simp)]
  rw [t3_longpara]
  show joinSepS "\n\n" ["A. " ++ " " ++ String.mk (List.replicate 4500 'b')]
    = t3result
  rw [joinSepS_singleton]
  apply string_ext
  rw [data_append, data_append]
  rfl

/-! ## Claim C3 -/

/-- Counterexample to C3 as stated: `t3input` is a single 4503-character
paragraph `"A. bbb…b"`.  With every backend call raising, the translator
sentence-chunks it and rejoins the chunks with single spaces, returning
`t3result` (`"A.  bbb…b"`, an extra space at the chunk boundary), which
differs from the input. -/
theorem translate_fallback_counterexample :
    failingTranslator.translate t3input = t3result ∧ t3result ≠ t3input := by
  refine ⟨translate_t3, ?_⟩
  intro h
  have hlen := congrArg String.length h
  rw [t3_len] at hlen
  have h4 : t3result.length = 4504 := by
    show ('A' :: '.' :: ' ' :: ' ' :: List.replicate 4500 'b' : List Char).length
      = 4504
    rw [List.length_cons, List.length_cons, List.length_cons, List.length_cons,
      List.length_replicate]
  omega

/-- Claim C3 as amended: with a backend whose every call raises,
`translate("")` returns `""`; any text of at most 4500 characters is
returned unchanged; and any longer text is returned unchanged provided its
blank-line-separated paragraphs are non-empty and at most 4498 characters
each.  (A single paragraph exceeding the threshold is sentence-chunked and
rejoined with spaces, which can alter whitespace — the counterexample.) -/
theorem translate_failing_backend_identity :
    failingTranslator.translate "" = "" ∧
    (∀ text : String, text.length ≤ 4500 →
      failingTranslator.translate text = text) ∧
    (∀ text : String,
      (∀ p ∈ splitOnS "\n\n" text, p ≠ "" ∧ p.length ≤ 4498) →
      failingTranslator.translate text = text) :=
  ⟨translate_short "" (by decide), translate_short, translate_fail_unchanged⟩

/-- Witness for the amended C3 on two small texts. -/
theorem translate_failing_backend_identity_witness :
    (("ab" : String).length ≤ 4500 ∧
      failingTranslator.translate "ab" = "ab") ∧
    ((∀ p ∈ splitOnS "\n\n" "a\n\nb", p ≠ "" ∧ p.length ≤ 4498) ∧
      failingTranslator.translate "a\n\nb" = "a\n\nb") :=
  ⟨⟨by decide, translate_failing_backend_identity.2.1 "ab" (by decide)⟩,
   ⟨by decide, translate_failing_backend_identity.2.2 "a\n\nb" (by decide)⟩⟩

/-! ## Symbolic evaluation on the oversized-paragraph input -/

theorem t7_strip : stripS t7input = t7input := by
  show String.mk (stripL ('A' :: '\n' :: '\n' :: List.replicate 4600 'b'))
    = t7input
  unfold t7input
  rw [mk_eq_mk_iff]
  have hsplit : ('A' :: '\n' :: '\n' :: List.replicate 4600 'b' : List Char)
      = 'A' :: (('\n' :: '\n' :: List.replicate 4599 'b') ++ ['b']) := by
    rw [show (4600 : Nat) = 4599 + 1 from rfl, List.replicate_succ']
    rfl
  rw [hsplit]
  exact strip_no_ws_ends 'A' 'b' _ (by decide) (by decide)

theorem t7_ne_empty : t7input ≠ "" := by
  rw [ne_empty_iff_data]
  show ('A' :: '\n' :: '\n' :: List.replicate 4600 'b' : List Char) ≠ []
  exact List.cons_ne_nil _ _

theorem t7_data_len :
    ('A' :: '\n' :: '\n' :: List.replicate 4600 'b' : List Char).length
      = 4603 := by
  rw [List.length_cons, List.length_cons, List.length_cons,
    List.length_replicate]

theorem t7_len : t7input.length = 4603 := t7_data_len

theorem t7big_len : t7bigParagraph.length = 4600 := by
  show (List.replicate 4600 'b').length = 4600
  rw [List.length_replicate]

theorem t7big_ne_empty : t7bigParagraph ≠ "" := by
  rw [ne_empty_iff_data]
  show List.replicate 4600 'b' ≠ []
  intro h
  have hlen := congrArg List.length h
  rw [List.length_replicate] at hlen
  have h0 : ([] : List Char).length = 0 := rfl
  omega

theorem t7_split : splitOnS "\n\n" t7input = ["A", t7bigParagraph] := by
  show (splitOnAuxL '\n' ['\n']
      (('A' :: '\n' :: '\n' :: List.replicate 4600 'b' : List Char).length + 1)
      [] ('A' :: '\n' :: '\n' :: List.replicate 4600 'b')).map String.mk
    = ["A", t7bigParagraph]
  rw [t7_data_len]
  rw [show (4603 : Nat) + 1 = 4603 + 1 from rfl,
    splitOnAuxL_cons_neg _ _ _ _ _ _ (by decide)]
  rw [show (4603 : Nat) = 4602 + 1 from rfl,
    splitOnAuxL_cons_pos '\n' ['\n'] 4602 ['A'] '\n'
      ('\n' :: List.replicate 4600 'b')
      (by simp only [List.isPrefixOf, beq_self_eq_true, Bool.true_and])]
  rw [show (('\n' :: List.replicate 4600 'b').drop (['\n'] : List Char).length)
      = List.replicate 4600 'b' from rfl]
  rw [splitOnAuxL_replicate '\n' ['\n'] 'b' (by decide) 4600 4602 [] (by omega)]
  rfl

/-! ## Claim C7 -/

/-- Claim C7 evaluated at the failing input `t7input`
(`"A\n\nbbb…b"` with a 4600-character second paragraph): the translator
flushes the pending chunk `"A"` and then passes the oversized paragraph
whole to the backend — the backend-call trace is exactly `["A", bbb…b]`,
whose second element exceeds the 4500-character `max_chunk_size`, and the
sentence-splitting path is never taken for it. -/
theorem translate_passes_oversized_chunk :
    failingTranslator.backendCalls t7input = ["A", t7bigParagraph] ∧
    t7bigParagraph.length = 4600 ∧
    failingTranslator.max_chunk_size = 4500 := by
  refine ⟨?_, t7big_len, rfl⟩
  unfold TextTranslator.backendCalls translateCore
  rw [if_neg (by rw [t7_strip]; exact t7_ne_empty)]
  rw [if_neg (by rw [t7_len, failingTranslator_max]; omega)]
  unfold translate_chunks
  rw [t7_split]
  rw [chunksLoop]
  rw [if_neg (by
    rw [failingTranslator_max]
    have h1 : ("A" : String).length = 1 := rfl
    have h3 : ("" : String).length = 0 := rfl
    omega)]
  rw [if_neg (show ¬ (("" : String) ≠ "") from by simp), empty_append]
  rw [chunksLoop]
  rw [if_pos (by
    rw [failingTranslator_max]
    have h1 : ("A" : String).length = 1 := rfl
    have h2 := t7big_len
    omega)]
  rw [if_pos (show ("A" : String) ≠ "" from by decide)]
  rw [chunksLoop]
  rw [if_pos t7big_ne_empty]
  rw [failingTranslator_backend, failingTranslator_backend]
